import Mathlib

/-!
Verification development for `api/ask.js`: a shallow embedding of the
question-answering pipeline (normalizer, name extractor, intent classifier,
special-case matcher, the three answer extractors and the orchestrator),
together with theorems settling the stated properties of the pipeline.

JavaScript strings are modelled as Lean `String`, absent record fields as
`none`, and JavaScript string truthiness (`if (s)`) as "not the empty
string".  The regular expressions of the source are modelled operationally:
leftmost match, greedy/lazy quantifier priority made explicit.
-/

namespace Ask

/-! ## Character and string primitives -/

/-- ASCII uppercase letter, the character class `[A-Z]` of the source. -/
def isUpperA (c : Char) : Bool := 'A' ≤ c && c ≤ 'Z'

/-- ASCII lowercase letter, the character class `[a-z]` of the source. -/
def isLowerA (c : Char) : Bool := 'a' ≤ c && c ≤ 'z'

/-- ASCII digit, the character class `\d`. -/
def isDigitA (c : Char) : Bool := '0' ≤ c && c ≤ '9'

/-- Whitespace as used by `\s`, `split(/\s+/)` and `trim()`; the inputs in
this development only ever use the ASCII whitespace characters. -/
def isWS (c : Char) : Bool := c == ' ' || c == '\t' || c == '\n' || c == '\r'

/-- Word character for the `\b` boundary of `/\bwhen\b/`: `[A-Za-z0-9_]`. -/
def isWordChar (c : Char) : Bool := isUpperA c || isLowerA c || isDigitA c || c == '_'

/-- ASCII lowercasing of one character, as `toLowerCase()` acts on the
ASCII range (the only characters the pipeline's comparisons depend on). -/
def lowerChar (c : Char) : Char :=
  if isUpperA c then Char.ofNat (c.toNat + 32) else c

/-- `p` is a prefix of `l`. -/
def isPrefixL : List Char → List Char → Bool
  | [], _ => true
  | _ :: _, [] => false
  | p :: ps, c :: cs => p == c && isPrefixL ps cs

/-- `p` occurs as a contiguous substring of `l` (JS `String.includes`). -/
def isInfixL (p : List Char) : List Char → Bool
  | [] => p.isEmpty
  | c :: rest => isPrefixL p (c :: rest) || isInfixL p rest

/-- Case-insensitive prefix test: `p` (already lowercase) against `l`. -/
def ciPrefixL : List Char → List Char → Bool
  | [], _ => true
  | _ :: _, [] => false
  | p :: ps, c :: cs => lowerChar c == p && ciPrefixL ps cs

/-- JS `s.toLowerCase()`. -/
def jsToLower (s : String) : String := String.mk (s.data.map lowerChar)

/-- JS `s.trim()`. -/
def jsTrim (s : String) : String :=
  String.mk (((s.data.dropWhile isWS).reverse.dropWhile isWS).reverse)

/-- JS `s.includes(sub)`. -/
def jsIncludes (s sub : String) : Bool := isInfixL sub.data s.data

/-- JS `s.startsWith(p)`. -/
def jsStartsWith (s p : String) : Bool := isPrefixL p.data s.data

/-- `normalize` of the source: lowercase then trim. -/
def normalize (text : String) : String := jsTrim (jsToLower text)

/-- Whitespace-splitting into the nonempty chunks; the source splits with
`split(/\s+/)` and immediately filters out the empty tokens, which yields
exactly these chunks. -/
def splitWsAux : List Char → List Char → List (List Char)
  | cur, [] => if cur.isEmpty then [] else [cur.reverse]
  | cur, c :: rest =>
    if isWS c then
      if cur.isEmpty then splitWsAux [] rest
      else cur.reverse :: splitWsAux [] rest
    else splitWsAux (c :: cur) rest

/-- The whitespace-delimited words of `l`. -/
def wordsWS (l : List Char) : List (List Char) := splitWsAux [] l

/-! ## Name extractor -/

/-- First match of the regex `[A-Z][a-z]+`: the scan tries every position
left to right; a match needs an uppercase letter followed by at least one
lowercase letter and greedily extends through the lowercase run. -/
def firstCapMatch : List Char → Option (List Char)
  | [] => none
  | c :: rest =>
    if isUpperA c && (match rest with | r :: _ => isLowerA r | [] => false) then
      some (c :: rest.takeWhile isLowerA)
    else firstCapMatch rest

/-- `extractMemberName` of the source: first `[A-Z][a-z]+` match of the
original-case question, or null. -/
def extractMemberName (question : String) : Option String :=
  (firstCapMatch question.data).map String.mk

/-! ## Intent classifier -/

/-- `classifyIntent` of the source. -/
def classifyIntent (question : String) : String :=
  let q := normalize question
  if jsIncludes q "how many" then "COUNT"
  else if jsStartsWith q "when" || jsIncludes q " when " then "WHEN"
  else if jsIncludes q "favorite" || jsIncludes q "favourite" then "FAVORITES"
  else "UNKNOWN"

/-! ## Special-case matcher -/

/-- `handleAssessmentSpecificQuestions` of the source. -/
def handleAssessmentSpecificQuestions (question : String) : Option String :=
  let q := jsToLower question
  if jsIncludes q "layla" && jsIncludes q "london" then
    some "Layla has not mentioned a trip to London in the available member messages."
  else if jsIncludes q "how many" && jsIncludes q "cars" && jsIncludes q "vikram" then
    some "There is no information in the member messages indicating how many cars Vikram Desai owns."
  else if (jsIncludes q "favorite" || jsIncludes q "favourite") &&
      jsIncludes q "restaurants" && jsIncludes q "amira" then
    some "The dataset does not include any details about Amira’s favorite restaurants."
  else none

/-! ## Message records -/

/-- A message record: the fields the pipeline reads, each possibly absent. -/
structure Msg where
  message : Option String
  text : Option String
  date : Option String
  timestamp : Option String
  created_at : Option String

/-- Record constructor used to spell out concrete messages. -/
def mkMsg (message text date timestamp created_at : Option String) : Msg :=
  ⟨message, text, date, timestamp, created_at⟩

/-- JS string truthiness of a possibly-absent string: absent and the empty
string are falsy. -/
def optTruthy : Option String → Bool
  | none => false
  | some s => !(s == "")

/-- JS `a || b` on possibly-absent strings: `a` when truthy, else `b`. -/
def jsOrO (a b : Option String) : Option String := if optTruthy a then a else b

/-- `String(msg.message || msg.text || '')` of the source. -/
def jsTextOf (m : Msg) : String := (jsOrO (jsOrO m.message m.text) (some "")).getD ""

/-- `best.date || best.timestamp || best.created_at` of the source. -/
def jsDateOf (m : Msg) : Option String := jsOrO (jsOrO m.date m.timestamp) m.created_at

/-! ## WHEN extractor -/

/-- Removal of the first `/\bwhen\b/` occurrence (`replace(/\bwhen\b/, '')`):
the scan tracks the previous character for the left word boundary; an
occurrence needs the literal `when` with a non-word character (or the ends
of the string) on both sides, and only the first occurrence is removed. -/
def removeWhenAux (prev : Option Char) : List Char → List Char
  | [] => []
  | c :: rest =>
    if isPrefixL ("when".data) (c :: rest)
        && (match prev with | none => true | some p => !isWordChar p)
        && (match (c :: rest).drop 4 with | [] => true | t :: _ => !isWordChar t) then
      (c :: rest).drop 4
    else c :: removeWhenAux (some c) rest

/-- `normalize(question).replace(/\bwhen\b/, '')` as a string function. -/
def removeWhenWord (s : String) : String := String.mk (removeWhenAux none s.data)

/-- The stop-word list of `answerWhenQuestion`. -/
def stopWords : List String := ["is", "was", "do", "does", "did", "planning", "plan", "the"]

/-- The query terms of `answerWhenQuestion`: normalized question with the
word `when` removed, split on whitespace, stop words and empty tokens
dropped. -/
def whenQueryTerms (q : String) : List String :=
  ((wordsWS (removeWhenWord (normalize q)).data).map String.mk).filter
    (fun t => !(stopWords.contains t))

/-- The per-message test of the `answerWhenQuestion` scan: the normalized
text mentions the member (lowercased) and contains every query term. -/
def whenMatchesMsg (member : String) (terms : List String) (m : Msg) : Bool :=
  let text := normalize (jsTextOf m)
  jsIncludes text (jsToLower member) && terms.all (fun t => jsIncludes text t)

/-- `answerWhenQuestion` of the source. -/
def answerWhenQuestion (question : String) (messages : List Msg) : Option String :=
  match extractMemberName question with
  | none => none
  | some member =>
    let terms := whenQueryTerms question
    match messages.find? (whenMatchesMsg member terms) with
    | none => none
    | some best =>
      let date := jsDateOf best
      if optTruthy date then
        some (member ++ " is planning that on " ++ date.getD "" ++ ".")
      else none

/-! ## COUNT extractor

The question pattern `/how many\s+([a-z\s]+?)\s+does/` is modelled
operationally: leftmost starting position; the first `\s+` is greedy (its
length is tried from the maximal whitespace run downwards); the capture
`([a-z\s]+?)` is lazy (shortest first); the final `\s+` followed by the
literal `does` forces the capture's end, since `d` is not whitespace, so the
trailing part matches exactly when the whitespace run after the capture is
nonempty and is followed by `does`.  -/

/-- The part of the count pattern after the capture: `\s+does`. -/
def matchWsThenDoes (l : List Char) : Bool :=
  let k := (l.takeWhile isWS).length
  k != 0 && isPrefixL ("does".data) (l.drop k)

/-- Lazy capture `([a-z\s]+?)` followed by `\s+does`: extend the capture one
character at a time, returning the first (shortest) capture whose tail
matches. -/
def lazyCaptureGo (acc : List Char) : List Char → Option (List Char)
  | [] => none
  | c :: rest =>
    if isLowerA c || isWS c then
      if matchWsThenDoes rest then some (acc ++ [c])
      else lazyCaptureGo (acc ++ [c]) rest
    else none

/-- Greedy `\s+` before the capture: try the run length from `k` downwards. -/
def descendWs (a : List Char) : Nat → Option (List Char)
  | 0 => none
  | k + 1 =>
    match lazyCaptureGo [] (a.drop (k + 1)) with
    | some cap => some cap
    | none => descendWs a k

/-- Match of the count pattern's tail right after the literal `how many`. -/
def matchAfterHowMany (a : List Char) : Option (List Char) :=
  descendWs a ((a.takeWhile isWS).length)

/-- Leftmost match of `/how many\s+([a-z\s]+?)\s+does/`, returning the
capture. -/
def scanHowMany : List Char → Option (List Char)
  | [] => none
  | c :: rest =>
    if isPrefixL ("how many".data) (c :: rest) then
      match matchAfterHowMany ((c :: rest).drop 8) with
      | some cap => some cap
      | none => scanHowMany rest
    else scanHowMany rest

/-- Match of the dynamic pattern `(\d+)\s+<obj>` at one position: a maximal
nonempty digit run, a nonempty whitespace run, then the literal object
phrase (the object phrase is trimmed, hence never starts with whitespace or
a digit, so both runs are forced). Returns the digit capture. -/
def tryCountAt (obj : List Char) (l : List Char) : Option (List Char) :=
  let digits := l.takeWhile isDigitA
  if digits.isEmpty then none
  else
    let rest := l.drop digits.length
    let k := (rest.takeWhile isWS).length
    if k != 0 && isPrefixL obj (rest.drop k) then some digits else none

/-- Leftmost match of `(\d+)\s+<obj>` over the message text. -/
def scanCount (obj : List Char) : List Char → Option (List Char)
  | [] => none
  | c :: rest =>
    match tryCountAt obj (c :: rest) with
    | some d => some d
    | none => scanCount obj rest

/-- The message scan of `answerCountQuestion`: first message whose
normalized text mentions the member and matches the digit pattern. -/
def countLoop (member obj : String) : List Msg → Option String
  | [] => none
  | m :: rest =>
    let text := normalize (jsTextOf m)
    if !(jsIncludes text (jsToLower member)) then countLoop member obj rest
    else
      match scanCount obj.data text.data with
      | some d => some (member ++ " has " ++ String.mk d ++ " " ++ obj ++ ".")
      | none => countLoop member obj rest

/-- `answerCountQuestion` of the source. -/
def answerCountQuestion (question : String) (messages : List Msg) : Option String :=
  match extractMemberName question with
  | none => none
  | some member =>
    match scanHowMany (normalize question).data with
    | none => none
    | some cap => countLoop member (jsTrim (String.mk cap)) messages

/-! ## FAVORITES extractor -/

/-- Character class `[a-z\s?]` of the favorites capture. -/
def inFavClass (c : Char) : Bool := isLowerA c || isWS c || c == '?'

/-- Greedy `\s+` then greedy capture `([a-z\s?]+)`: for a fixed whitespace
run length the capture is the maximal class run and must be nonempty; when
it is empty the `\s+` backtracks to a shorter run (whose trailing whitespace
then feeds the capture, which is in the class). -/
def favDescend (a : List Char) : Nat → Option (List Char)
  | 0 => none
  | k + 1 =>
    let cap := (a.drop (k + 1)).takeWhile inFavClass
    if cap.isEmpty then favDescend a k else some cap

/-- Match of the favorites pattern's tail right after the literal
`favorite`. -/
def matchAfterFavorite (a : List Char) : Option (List Char) :=
  favDescend a ((a.takeWhile isWS).length)

/-- Leftmost match of `/favorite\s+([a-z\s?]+)/`, returning the capture. -/
def scanFavorite : List Char → Option (List Char)
  | [] => none
  | c :: rest =>
    if isPrefixL ("favorite".data) (c :: rest) then
      match matchAfterFavorite ((c :: rest).drop 8) with
      | some cap => some cap
      | none => scanFavorite rest
    else scanFavorite rest

/-- JS `s.replace('?', '')`: remove the first question mark only. -/
def removeFirstQmark : List Char → List Char
  | [] => []
  | c :: rest => if c == '?' then rest else c :: removeFirstQmark rest

/-- The category phrase of `answerFavoritesQuestion`: the capture of
`/favorite\s+([a-z\s?]+)/` on the normalized question, with the first `?`
removed and trimmed. -/
def favCategory (question : String) : Option String :=
  match scanFavorite (normalize question).data with
  | none => none
  | some cap => some (jsTrim (String.mk (removeFirstQmark cap)))

/-- `category.split(' ')[0]`: the characters before the first space. -/
def firstWordSp (s : String) : String := String.mk (s.data.takeWhile (fun c => c != ' '))

/-- The three guards of the favorites scan: normalized text mentions the
member, contains `favorite`, and contains the category's first word. -/
def favGuards (member category : String) (m : Msg) : Bool :=
  let lower := normalize (jsTextOf m)
  jsIncludes lower (jsToLower member) && jsIncludes lower "favorite" &&
    jsIncludes lower (firstWordSp category)

/-- The suffix of the original-case text after the last case-insensitive
occurrence of `favorite` (`text.split(/favorite/i)` taken at its last
element), or `none` when there is no occurrence (the split then returns the
whole text as its only element). The split is left-to-right and
non-overlapping, so after an occurrence the scan resumes past it. -/
def lastAfterFavAux (skip : Nat) (best : Option (List Char)) : List Char → Option (List Char)
  | [] => best
  | c :: rest =>
    match skip with
    | n + 1 => lastAfterFavAux n best rest
    | 0 =>
      if ciPrefixL ("favorite".data) (c :: rest) then
        lastAfterFavAux 7 (some ((c :: rest).drop 8)) rest
      else lastAfterFavAux 0 best rest

/-- Entry point of the scan: no occurrence seen yet, nothing to skip. -/
def lastAfterFav (l : List Char) : Option (List Char) := lastAfterFavAux 0 none l

/-- Leading-punctuation strip `replace(/^[:\s.-]+/, '')`. -/
def stripLeadPunct (l : List Char) : List Char :=
  l.dropWhile (fun c => c == ':' || isWS c || c == '.' || c == '-')

/-- The extracted remainder of one message: text after the last
case-insensitive `favorite`, leading punctuation stripped, trimmed. -/
def favRemainder (m : Msg) : String :=
  let text := jsTextOf m
  jsTrim (String.mk (stripLeadPunct ((lastAfterFav text.data).getD text.data)))

/-- The message scan of `answerFavoritesQuestion`: on a message passing the
guards, a nonempty remainder produces the answer; an empty remainder lets
the scan continue with the next message. -/
def favLoop (member category : String) : List Msg → Option String
  | [] => none
  | m :: rest =>
    if favGuards member category m then
      let favPart := favRemainder m
      if favPart == "" then favLoop member category rest
      else some (member ++ "\u0027s favorite " ++ category ++ " are " ++ favPart ++ ".")
    else favLoop member category rest

/-- `answerFavoritesQuestion` of the source. -/
def answerFavoritesQuestion (question : String) (messages : List Msg) : Option String :=
  match extractMemberName question with
  | none => none
  | some member =>
    match favCategory question with
    | none => none
    | some category => favLoop member category messages

/-! ## Orchestrator -/

/-- The generic fallback sentence of the source (its apostrophe is the
typographic U+2019 right single quotation mark, as in the source literal). -/
def fallbackAnswer : String := "Sorry, I couldn’t infer an answer from the member data."

/-- The intent dispatch of `generateAnswer`: WHEN, then COUNT, then
FAVORITES; UNKNOWN invokes no extractor. -/
def dispatchAnswer (question : String) (messages : List Msg) : Option String :=
  if classifyIntent question == "WHEN" then answerWhenQuestion question messages
  else if classifyIntent question == "COUNT" then answerCountQuestion question messages
  else if classifyIntent question == "FAVORITES" then answerFavoritesQuestion question messages
  else none

/-- The generic part of `generateAnswer`: the dispatched extractor's answer
when truthy, else the fallback (`if (!ans) return ...`). -/
def genericAnswer (question : String) (messages : List Msg) : String :=
  match dispatchAnswer question messages with
  | none => fallbackAnswer
  | some a => if a == "" then fallbackAnswer else a

/-- `generateAnswer` of the source: special cases first (`if (special)
return special` is a truthiness test), then the generic logic. -/
def generateAnswer (question : String) (messages : List Msg) : String :=
  match handleAssessmentSpecificQuestions question with
  | none => genericAnswer question messages
  | some s => if s == "" then genericAnswer question messages else s

/-! ## Spec-side reading of the name extractor

The specification describes `extractMemberName` as returning the first
whitespace-delimited *token* matching "one uppercase letter followed by one
or more lowercase letters"; the following definition follows those words,
for comparison with the source definition above. -/

/-- A whole token of shape one uppercase letter then one or more lowercase
letters. -/
def tokenIsCapWord (w : List Char) : Bool :=
  match w with
  | [] => false
  | c :: rest => isUpperA c && !rest.isEmpty && rest.all isLowerA

/-- Modelled from the spec's words (section 4.2): the first
whitespace-delimited token of the original-case question that matches the
capitalized-word pattern, returned verbatim. -/
def specTokenMemberName (question : String) : Option String :=
  (((wordsWS question.data).filter tokenIsCapWord).head?).map String.mk

/-! ## Helper lemmas -/

/-- A WHEN-classified question dispatches to the WHEN extractor. -/
theorem dispatchAnswer_when (q : String) (msgs : List Msg)
    (h : classifyIntent q = "WHEN") :
    dispatchAnswer q msgs = answerWhenQuestion q msgs := by
  have e : (("WHEN" : String) == "WHEN") = true := by decide
  simp [dispatchAnswer, h, e]

/-- A COUNT-classified question dispatches to the COUNT extractor. -/
theorem dispatchAnswer_count (q : String) (msgs : List Msg)
    (h : classifyIntent q = "COUNT") :
    dispatchAnswer q msgs = answerCountQuestion q msgs := by
  have e1 : (("COUNT" : String) == "WHEN") = false := by decide
  have e2 : (("COUNT" : String) == "COUNT") = true := by decide
  simp [dispatchAnswer, h, e1, e2]

/-- An UNKNOWN-classified question dispatches to no extractor. -/
theorem dispatchAnswer_unknown (q : String) (msgs : List Msg)
    (h : classifyIntent q = "UNKNOWN") :
    dispatchAnswer q msgs = none := by
  have e1 : (("UNKNOWN" : String) == "WHEN") = false := by decide
  have e2 : (("UNKNOWN" : String) == "COUNT") = false := by decide
  have e3 : (("UNKNOWN" : String) == "FAVORITES") = false := by decide
  simp [dispatchAnswer, h, e1, e2, e3]

/-- A count scan over messages none of which mention the member finds
nothing. -/
theorem countLoop_none_of_no_member (member obj : String) (msgs : List Msg)
    (h : ∀ m ∈ msgs, jsIncludes (normalize (jsTextOf m)) (jsToLower member) = false) :
    countLoop member obj msgs = none := by
  induction msgs with
  | nil => rfl
  | cons m rest ih =>
    have hm : jsIncludes (normalize (jsTextOf m)) (jsToLower member) = false :=
      h m (by simp)
    have hrest : countLoop member obj rest = none :=
      ih (fun x hx => h x (by simp [hx]))
    simp [countLoop, hm, hrest]

/-! ## Claim theorems -/

/-- C1: every question whose lowercasing contains both `layla` and `london`
is answered with the fixed Layla/London sentence, for every message
collection; the result does not depend on the messages, so no extraction is
involved. -/
theorem generateAnswer_layla_london (q : String) (msgs : List Msg)
    (h1 : jsIncludes (jsToLower q) "layla" = true)
    (h2 : jsIncludes (jsToLower q) "london" = true) :
    generateAnswer q msgs =
      "Layla has not mentioned a trip to London in the available member messages." := by
  unfold generateAnswer handleAssessmentSpecificQuestions
  simp [h1, h2]

/-- C1 witness: the Layla/London special case at a concrete mixed-case
question and the empty message collection. -/
theorem generateAnswer_layla_london_witness :
    jsIncludes (jsToLower "Will LAYLA visit London soon?") "layla" = true ∧
    jsIncludes (jsToLower "Will LAYLA visit London soon?") "london" = true ∧
    generateAnswer "Will LAYLA visit London soon?" [] =
      "Layla has not mentioned a trip to London in the available member messages." :=
  ⟨by decide, by decide,
    generateAnswer_layla_london "Will LAYLA visit London soon?" [] (by decide) (by decide)⟩

/-- C2 counterexample: a two-message list whose first message passes the
favorites guards with an empty extracted remainder and whose second passes
them with a nonempty remainder; the scan does not stop at the first message
and the overall result is the answer derived from the second, not null. -/
theorem favorites_first_empty_cex :
    favGuards "Priya" "color" (mkMsg (some "Priya color favorite: ") none none none none) = true ∧
    favRemainder (mkMsg (some "Priya color favorite: ") none none none none) = "" ∧
    favGuards "Priya" "color" (mkMsg (some "Priya favorite color: blue") none none none none) = true ∧
    favRemainder (mkMsg (some "Priya favorite color: blue") none none none none) ≠ "" ∧
    answerFavoritesQuestion "Priya favorite color?"
        [mkMsg (some "Priya color favorite: ") none none none none,
          mkMsg (some "Priya favorite color: blue") none none none none] =
      some "Priya's favorite color are color: blue." :=
  ⟨by decide, by decide, by decide, by decide, by decide⟩

/-- C2 (amended): when the first message passing the member/favorite/
category-word guards has an empty extracted remainder, the favorites scan
continues with the remaining messages: the answer over `m :: rest` equals
the answer over `rest`. -/
theorem favorites_empty_remainder_continues (q member category : String) (m : Msg)
    (rest : List Msg)
    (h1 : extractMemberName q = some member)
    (h2 : favCategory q = some category)
    (h3 : favGuards member category m = true)
    (h4 : favRemainder m = "") :
    answerFavoritesQuestion q (m :: rest) = answerFavoritesQuestion q rest := by
  unfold answerFavoritesQuestion
  rw [h1, h2]
  simp [favLoop, h3, h4]

/-- C2 witness: the amended statement at the concrete two-message list of
the counterexample input. -/
theorem favorites_empty_remainder_continues_witness :
    extractMemberName "Priya favorite color?" = some "Priya" ∧
    favCategory "Priya favorite color?" = some "color" ∧
    favGuards "Priya" "color" (mkMsg (some "Priya color favorite: ") none none none none) = true ∧
    favRemainder (mkMsg (some "Priya color favorite: ") none none none none) = "" ∧
    answerFavoritesQuestion "Priya favorite color?"
        (mkMsg (some "Priya color favorite: ") none none none none ::
          [mkMsg (some "Priya favorite color: blue") none none none none]) =
      answerFavoritesQuestion "Priya favorite color?"
        [mkMsg (some "Priya favorite color: blue") none none none none] :=
  ⟨by decide, by decide, by decide, by decide,
    favorites_empty_remainder_continues "Priya favorite color?" "Priya" "color"
      (mkMsg (some "Priya color favorite: ") none none none none)
      [mkMsg (some "Priya favorite color: blue") none none none none]
      (by decide) (by decide) (by decide) (by decide)⟩

/-- C3 counterexample: on the claimed input the orchestrator does not return
`Sam has 3 dogs.`; the extracted member name is the sentence-initial word
`How`, which the message never mentions. -/
theorem count_sam_dogs_cex :
    extractMemberName "How many dogs does Sam have?" = some "How" ∧
    generateAnswer "How many dogs does Sam have?"
        [mkMsg (some "Sam has 3 dogs at home") none none none none] ≠ "Sam has 3 dogs." :=
  ⟨by decide, by decide⟩

/-- C3 (amended): for the question `How many dogs does Sam have?` the
extracted member is `How`, so whenever no message text contains `how` the
orchestrator returns the generic fallback; in particular it does so on the
single message `Sam has 3 dogs at home`. -/
theorem count_sam_dogs_fallback (msgs : List Msg)
    (h : ∀ m ∈ msgs, jsIncludes (normalize (jsTextOf m)) "how" = false) :
    generateAnswer "How many dogs does Sam have?" msgs = fallbackAnswer := by
  have hmem : extractMemberName "How many dogs does Sam have?" = some "How" := by decide
  have hscan : scanHowMany (normalize "How many dogs does Sam have?").data =
      some ("dogs".data) := by decide
  have hobj : jsTrim (String.mk ("dogs".data)) = "dogs" := by decide
  have hcount : answerCountQuestion "How many dogs does Sam have?" msgs = none := by
    unfold answerCountQuestion
    simp only [hmem, hscan]
    rw [hobj]
    apply countLoop_none_of_no_member
    intro m hm
    rw [show jsToLower "How" = "how" from by decide]
    exact h m hm
  have hh : handleAssessmentSpecificQuestions "How many dogs does Sam have?" = none := by
    decide
  have hci : classifyIntent "How many dogs does Sam have?" = "COUNT" := by decide
  have hd : dispatchAnswer "How many dogs does Sam have?" msgs = none :=
    (dispatchAnswer_count "How many dogs does Sam have?" msgs hci).trans hcount
  simp [generateAnswer, genericAnswer, hh, hd]

/-- C3 witness: the amended statement at the single message of the claim. -/
theorem count_sam_dogs_fallback_witness :
    (∀ m ∈ [mkMsg (some "Sam has 3 dogs at home") none none none none],
        jsIncludes (normalize (jsTextOf m)) "how" = false) ∧
    generateAnswer "How many dogs does Sam have?"
        [mkMsg (some "Sam has 3 dogs at home") none none none none] = fallbackAnswer :=
  ⟨by decide,
    count_sam_dogs_fallback [mkMsg (some "Sam has 3 dogs at home") none none none none]
      (by decide)⟩

/-- C4 counterexample: on the claimed input (message with a date field) the
orchestrator does not return `Maya is planning that on 2024-05-01.`. -/
theorem when_maya_paris_cex :
    generateAnswer "When is Maya planning her trip to Paris?"
        [mkMsg (some "Maya is planning her trip to Paris") none (some "2024-05-01") none none] ≠
      "Maya is planning that on 2024-05-01." := by decide

/-- C4 (amended): on the question `When is Maya planning her trip to
Paris?` the orchestrator returns the generic fallback both with and without
the date field: the extracted member is the sentence-initial `When`, which
the message text never mentions (and the derived query term `paris?` does
not occur in the text either). -/
theorem when_maya_paris_fallback :
    extractMemberName "When is Maya planning her trip to Paris?" = some "When" ∧
    generateAnswer "When is Maya planning her trip to Paris?"
        [mkMsg (some "Maya is planning her trip to Paris") none (some "2024-05-01") none none] =
      fallbackAnswer ∧
    generateAnswer "When is Maya planning her trip to Paris?"
        [mkMsg (some "Maya is planning her trip to Paris") none none none none] =
      fallbackAnswer :=
  ⟨by decide, by decide, by decide⟩

/-- C5 counterexample: the name extractor is not token-based: on `xAb cd`
no whitespace-delimited token is a capitalized word, yet the extractor
returns the inner substring `Ab`; and a null member name does not force the
generic fallback: a special-case question with no capitalized word is
answered with the fixed Layla/London sentence. -/
theorem extract_token_cex :
    specTokenMemberName "xAb cd" = none ∧
    extractMemberName "xAb cd" = some "Ab" ∧
    extractMemberName "is layla going to london" = none ∧
    generateAnswer "is layla going to london" [] =
      "Layla has not mentioned a trip to London in the available member messages." :=
  ⟨by decide, by decide, by decide, by decide⟩

/-- C5 (amended): when the name extractor returns null, all three
intent-specific extractors return null, and the orchestrator returns the
generic fallback provided no special-case entry matches. -/
theorem extractMemberName_none_propagates (q : String) (msgs : List Msg)
    (h : extractMemberName q = none) :
    answerWhenQuestion q msgs = none ∧ answerCountQuestion q msgs = none ∧
    answerFavoritesQuestion q msgs = none ∧
    (handleAssessmentSpecificQuestions q = none → generateAnswer q msgs = fallbackAnswer) := by
  have hw : answerWhenQuestion q msgs = none := by
    unfold answerWhenQuestion
    rw [h]
  have hc : answerCountQuestion q msgs = none := by
    unfold answerCountQuestion
    rw [h]
  have hf : answerFavoritesQuestion q msgs = none := by
    unfold answerFavoritesQuestion
    rw [h]
  have hd : dispatchAnswer q msgs = none := by
    simp [dispatchAnswer, hw, hc, hf]
  exact ⟨hw, hc, hf, fun hh => by simp [generateAnswer, genericAnswer, hh, hd]⟩

/-- C5 witness: a question with no capitalized word and no special-case
match falls through to the generic fallback. -/
theorem extractMemberName_none_propagates_witness :
    extractMemberName "how many dogs does sam have?" = none ∧
    handleAssessmentSpecificQuestions "how many dogs does sam have?" = none ∧
    answerCountQuestion "how many dogs does sam have?" [] = none ∧
    generateAnswer "how many dogs does sam have?" [] = fallbackAnswer :=
  ⟨by decide, by decide,
    (extractMemberName_none_propagates "how many dogs does sam have?" [] (by decide)).2.1,
    (extractMemberName_none_propagates "how many dogs does sam have?" [] (by decide)).2.2.2
      (by decide)⟩

/-- C6 counterexample: on an unknown-intent question with no special-case
match the orchestrator's answer is not the claimed ASCII-apostrophe
sentence: the fixed fallback of the code spells `couldn’t` with the
typographic U+2019 apostrophe. -/
theorem fallback_apostrophe_cex :
    handleAssessmentSpecificQuestions "Tell me about Sam" = none ∧
    classifyIntent "Tell me about Sam" = "UNKNOWN" ∧
    generateAnswer "Tell me about Sam" [] ≠
      "Sorry, I couldn't infer an answer from the member data." :=
  ⟨by decide, by decide, by decide⟩

/-- C6 (amended): whenever no special case matches and the intent is
UNKNOWN, or more generally the dispatched extractor returns null, the
orchestrator returns exactly the fixed fallback sentence (spelled with the
U+2019 apostrophe), for any message collection. -/
theorem generateAnswer_fallback_on_null (q : String) (msgs : List Msg)
    (h1 : handleAssessmentSpecificQuestions q = none)
    (h2 : classifyIntent q = "UNKNOWN" ∨ dispatchAnswer q msgs = none) :
    generateAnswer q msgs = fallbackAnswer := by
  have hd : dispatchAnswer q msgs = none := by
    rcases h2 with hu | hn
    · exact dispatchAnswer_unknown q msgs hu
    · exact hn
  simp [generateAnswer, genericAnswer, h1, hd]

/-- C6 witness: the fallback at a concrete unknown-intent question. -/
theorem generateAnswer_fallback_on_null_witness :
    handleAssessmentSpecificQuestions "Tell me about Sam" = none ∧
    classifyIntent "Tell me about Sam" = "UNKNOWN" ∧
    generateAnswer "Tell me about Sam" [] = fallbackAnswer :=
  ⟨by decide, by decide,
    generateAnswer_fallback_on_null "Tell me about Sam" [] (by decide) (Or.inl (by decide))⟩

/-- C7: any question whose normalization contains `how many` is classified
COUNT, whatever else it contains; the `how many` check is evaluated first. -/
theorem classifyIntent_howmany_count (q : String)
    (h : jsIncludes (normalize q) "how many" = true) :
    classifyIntent q = "COUNT" := by
  unfold classifyIntent
  simp [h]

/-- C7 witness: the question containing both `how many` and `favorite` is
classified COUNT and not FAVORITES. -/
theorem classifyIntent_howmany_count_witness :
    jsIncludes (normalize "how many favorite cars does Sam have") "how many" = true ∧
    classifyIntent "how many favorite cars does Sam have" = "COUNT" ∧
    classifyIntent "how many favorite cars does Sam have" ≠ "FAVORITES" :=
  ⟨by decide, classifyIntent_howmany_count "how many favorite cars does Sam have" (by decide),
    by decide⟩

/-- C8: the orchestrator is total: on every question and message list its
answer is a special-case fixed string, a dispatched-extractor string, or
the fixed fallback sentence. -/
theorem generateAnswer_total_cases (q : String) (msgs : List Msg) :
    (∃ s, handleAssessmentSpecificQuestions q = some s ∧ generateAnswer q msgs = s) ∨
    (∃ s, dispatchAnswer q msgs = some s ∧ generateAnswer q msgs = s) ∨
    generateAnswer q msgs = fallbackAnswer := by
  cases hs : handleAssessmentSpecificQuestions q with
  | some s =>
    cases hse : s == "" with
    | false => exact Or.inl ⟨s, rfl, by simp [generateAnswer, hs, hse]⟩
    | true =>
      cases hd : dispatchAnswer q msgs with
      | none =>
        exact Or.inr (Or.inr (by simp [generateAnswer, genericAnswer, hs, hse, hd]))
      | some a =>
        cases ha : a == "" with
        | true =>
          exact Or.inr (Or.inr (by simp [generateAnswer, genericAnswer, hs, hse, hd, ha]))
        | false =>
          exact Or.inr (Or.inl ⟨a, rfl, by simp [generateAnswer, genericAnswer, hs, hse, hd, ha]⟩)
  | none =>
    cases hd : dispatchAnswer q msgs with
    | none => exact Or.inr (Or.inr (by simp [generateAnswer, genericAnswer, hs, hd]))
    | some a =>
      cases ha : a == "" with
      | true => exact Or.inr (Or.inr (by simp [generateAnswer, genericAnswer, hs, hd, ha]))
      | false =>
        exact Or.inr (Or.inl ⟨a, rfl, by simp [generateAnswer, genericAnswer, hs, hd, ha]⟩)

/-- C9: the orchestrator is a deterministic function of its two inputs: two
invocations with equal questions and equal message lists produce equal
answers (in this pure embedding, which is faithful because the source
mutates neither its inputs nor any global state). -/
theorem generateAnswer_deterministic (q1 q2 : String) (m1 m2 : List Msg)
    (hq : q1 = q2) (hm : m1 = m2) :
    generateAnswer q1 m1 = generateAnswer q2 m2 := by
  rw [hq, hm]

/-- C9 witness: two identical invocations at a concrete input. -/
theorem generateAnswer_deterministic_witness :
    generateAnswer "Tell me about Vikram" [] = generateAnswer "Tell me about Vikram" [] :=
  generateAnswer_deterministic "Tell me about Vikram" "Tell me about Vikram" [] [] rfl rfl

/-- C10: date-like fields are tested for truthiness, not presence: when the
first textually matching message has `date` equal to the empty string, the
answer is the one the message would give with `date` absent (falling
through to `timestamp` then `created_at`); and when those two are falsy as
well the extractor returns null and the orchestrator (dispatching WHEN with
no special case) returns the generic fallback. -/
theorem when_date_truthiness (q member : String) (m : Msg) (rest : List Msg)
    (h1 : extractMemberName q = some member)
    (h2 : whenMatchesMsg member (whenQueryTerms q) m = true)
    (h3 : m.date = some "") :
    answerWhenQuestion q (m :: rest) =
      answerWhenQuestion q (mkMsg m.message m.text none m.timestamp m.created_at :: rest) ∧
    (optTruthy m.timestamp = false → optTruthy m.created_at = false →
      answerWhenQuestion q (m :: rest) = none ∧
      (handleAssessmentSpecificQuestions q = none → classifyIntent q = "WHEN" →
        generateAnswer q (m :: rest) = fallbackAnswer)) := by
  have h2' : whenMatchesMsg member (whenQueryTerms q)
      (mkMsg m.message m.text none m.timestamp m.created_at) = true := h2
  have hfind : (m :: rest).find? (whenMatchesMsg member (whenQueryTerms q)) = some m := by
    simp [List.find?, h2]
  have hfind' : (mkMsg m.message m.text none m.timestamp m.created_at :: rest).find?
      (whenMatchesMsg member (whenQueryTerms q)) =
      some (mkMsg m.message m.text none m.timestamp m.created_at) := by
    simp [List.find?, h2']
  constructor
  · unfold answerWhenQuestion
    simp only [h1]
    rw [hfind, hfind']
    have hdate : jsDateOf m = jsDateOf (mkMsg m.message m.text none m.timestamp m.created_at) := by
      simp [jsDateOf, mkMsg, h3, jsOrO, optTruthy]
    simp only [hdate]
  · intro ht hc
    have hdf : optTruthy (jsDateOf m) = false := by
      have e0 : optTruthy (some "") = false := by decide
      have h4 : jsDateOf m = m.created_at := by
        unfold jsDateOf jsOrO
        rw [h3, e0]
        simp [ht]
      rw [h4]
      exact hc
    have hwn : answerWhenQuestion q (m :: rest) = none := by
      unfold answerWhenQuestion
      simp only [h1]
      rw [hfind]
      simp [hdf]
    refine ⟨hwn, fun hh hci => ?_⟩
    have hd : dispatchAnswer q (m :: rest) = none :=
      (dispatchAnswer_when q (m :: rest) hci).trans hwn
    simp [generateAnswer, genericAnswer, hh, hd]

/-- C10 witness: a first matching message carrying `date` as the empty
string and no other date-like field yields null and the generic fallback. -/
theorem when_date_truthiness_witness :
    extractMemberName "when does Maya visit" = some "Maya" ∧
    whenMatchesMsg "Maya" (whenQueryTerms "when does Maya visit")
      (mkMsg (some "Maya will visit") none (some "") none none) = true ∧
    answerWhenQuestion "when does Maya visit"
      [mkMsg (some "Maya will visit") none (some "") none none] = none ∧
    generateAnswer "when does Maya visit"
      [mkMsg (some "Maya will visit") none (some "") none none] = fallbackAnswer :=
  ⟨by decide, by decide,
    ((when_date_truthiness "when does Maya visit" "Maya"
        (mkMsg (some "Maya will visit") none (some "") none none) []
        (by decide) (by decide) (by decide)).2 (by decide) (by decide)).1,
    (((when_date_truthiness "when does Maya visit" "Maya"
        (mkMsg (some "Maya will visit") none (some "") none none) []
        (by decide) (by decide) (by decide)).2 (by decide) (by decide)).2
      (by decide) (by decide))⟩

end Ask
